import Mathlib

/-!
Verification of the b2b-jd-crawl crawler (src/crawler_full.py).

The file shallowly embeds the data-handling core of the crawler:

* the JSON payloads observed on the network and the two response listeners
  (`capture_api` for the product-list API, `capture_detail_api` for the
  product-detail API);
* the scroll-saturation loop of `get_sku_ids_from_page`;
* the risk-verification polling loop of `handle_risk_verification`;
* the field extraction of `extract_product_info` (including the merge of the
  two specification list representations) and the stub-record path of
  `crawl_category`;
* the HTML image fallback `_extract_detail_images`;
* the per-record export row of `save_to_excel`.

Browser automation (navigation, clicking, waiting) is not modelled; the
sequences of network responses, observed identifier counts, scroll positions
and polled URLs that those calls produce are taken as inputs.  String
helpers re-implement, on `List Char`, the exact Python string operations the
code uses (substring test `in`, `startswith`, `split`, `replace`), so that
every definition evaluates by kernel reduction.
-/

/-! ### Python string primitives -/

/-- Substring occurrence test on character lists: `hasSub s pat` is the Python
expression `pat in s` for strings. -/
def hasSub : List Char → List Char → Bool
  | [], pat => pat.isEmpty
  | s@(_ :: rest), pat => pat.isPrefixOf s || hasSub rest pat

/-- Python `pat in s` for strings. -/
def strContains (s pat : String) : Bool := hasSub s.data pat.data

/-- Python `s.startswith(pat)`. -/
def pyStartsWith (s pat : String) : Bool := pat.data.isPrefixOf s.data

/-- Helper for `pyReplace`: replaces every non-overlapping occurrence of
`pat`, scanning left to right.  The fuel argument is the length of the
remaining input, so the recursion is structural; the crawler only ever calls
this with the non-empty pattern "/n4/", for which one unit of fuel per input
character is always enough. -/
def replaceAllAux (pat rep : List Char) : Nat → List Char → List Char
  | _, [] => []
  | 0, s => s
  | fuel + 1, c :: rest =>
    if pat.isPrefixOf (c :: rest) then
      rep ++ replaceAllAux pat rep fuel ((c :: rest).drop pat.length)
    else c :: replaceAllAux pat rep fuel rest

/-- Python `s.replace(pat, rep)` (all occurrences, left to right). -/
def pyReplace (s pat rep : String) : String :=
  ⟨replaceAllAux pat.data rep.data s.data.length s.data⟩

/-- Python `s.split('!')[0]`: the characters before the first `!`. -/
def pySplitBang (s : String) : String := ⟨s.data.takeWhile (fun c => c ≠ '!')⟩

/-! ### JSON values -/

/-- Parsed JSON values, as produced by `response.json()`.  Numbers are
modelled as integers; no claim involves fractional numbers. -/
inductive Json where
  | null
  | bool (b : Bool)
  | num (n : Int)
  | str (s : String)
  | arr (elems : List Json)
  | obj (fields : List (String × Json))

/-- Python `d.get(key)` on a dict-shaped JSON value (`none` when the value is
not a dict or the key is absent); the same lookup also models `key in d`
followed by `d[key]`. -/
def Json.get? : Json → String → Option Json
  | .obj fields, key => fields.lookup key
  | _, _ => none

/-- Python truthiness of a parsed-JSON value (`if api_data:` etc.). -/
def jsonTruthy : Json → Bool
  | .null => false
  | .bool b => b
  | .num n => n != 0
  | .str s => s != ""
  | .arr elems => !elems.isEmpty
  | .obj fields => !fields.isEmpty

/-- Python `str()` applied to a parsed-JSON value, as in `str(item['skuId'])`.
For composite values Python renders a full repr; the placeholder renderings
here are irrelevant to every claim, which only involve scalar identifiers. -/
def pyStr : Json → String
  | .str s => s
  | .num n => toString n
  | .bool true => "True"
  | .bool false => "False"
  | .null => "None"
  | .arr _ => "[...]"
  | .obj _ => "(dict)"

/-- One network response delivered to a page's `response` listeners.
`body = none` models a body that `response.json()` fails to parse
(non-JSON or malformed). -/
structure Response where
  url : String
  body : Option Json

/-- The URL filter shared by both listeners: `'api.m.jd.com' in url`. -/
def isApiUrl (url : String) : Bool := strContains url "api.m.jd.com"

/-! ### The list-API listener (`get_sku_ids_from_page.capture_api`,
src/crawler_full.py lines 282-296) -/

/-- The innermost append of `capture_api`:
`if sku_id not in captured_skus: captured_skus.append(sku_id)`. -/
def addSku (captured : List String) (s : String) : List String :=
  if s ∈ captured then captured else captured ++ [s]

/-- The per-item body of the `for item in data['childList']` loop:
`if isinstance(item, dict) and 'skuId' in item: sku_id = str(item['skuId']); ...`. -/
def addItem (captured : List String) (item : Json) : List String :=
  match item with
  | .obj fields =>
    match fields.lookup "skuId" with
    | some v => addSku captured (pyStr v)
    | none => captured
  | _ => captured

/-- The `capture_api` listener applied to one response, threading the
`captured_skus` accumulator.  A `childList` value that is not a JSON array
contributes nothing: iterating a Python dict or string yields non-dict
items that the `isinstance` guard skips, and iterating a scalar raises a
`TypeError` that the bare `except: pass` swallows before any append. -/
def capture_api (captured : List String) (r : Response) : List String :=
  if isApiUrl r.url then
    match r.body with
    | none => captured
    | some body =>
      match body with
      | .obj _ =>
        match (body.get? "data").getD (Json.obj []) with
        | .obj dataFields =>
          match dataFields.lookup "childList" with
          | some (.arr items) => items.foldl addItem captured
          | _ => captured
        | _ => captured
      | _ => captured
  else captured

/-- The identifier a single `childList` item contributes, if any. -/
def skuOfItem : Json → Option String
  | .obj fields => (fields.lookup "skuId").map pyStr
  | _ => none

/-- The raw identifier stream of one response: every identifier the
`capture_api` loop would consider, in order, before deduplication. -/
def listSkus (r : Response) : List String :=
  if isApiUrl r.url then
    match r.body with
    | none => []
    | some body =>
      match body with
      | .obj _ =>
        match (body.get? "data").getD (Json.obj []) with
        | .obj dataFields =>
          match dataFields.lookup "childList" with
          | some (.arr items) => items.filterMap skuOfItem
          | _ => []
        | _ => []
      | _ => []
  else []

/-- The raw identifier stream of one page's responses. -/
def pageStream (rs : List Response) : List String := (rs.map listSkus).flatten

/-- The raw identifier stream of a whole category run (all pages in order). -/
def catStream (pages : List (List Response)) : List String :=
  (pages.map pageStream).flatten

/-- `get_sku_ids_from_page` as a function of the responses that reach its
listener while the accumulator is live: the `captured_skus` list returned to
the caller (src/crawler_full.py lines 278-409). -/
def get_sku_ids_from_page (rs : List Response) : List String :=
  rs.foldl capture_api []

/-- The identifier-collection part of `crawl_category` (src/crawler_full.py
lines 604-611): per page, `for sku_id in sku_ids: if sku_id not in
all_sku_ids: all_sku_ids.append(sku_id)`. -/
def crawl_category_skus (pages : List (List Response)) : List String :=
  pages.foldl (fun all rs => (get_sku_ids_from_page rs).foldl addSku all) []

/-! ### First-seen-order deduplication -/

/-- Keeps the first occurrence of every element and drops later duplicates;
this is the specification-side description of the accumulator behaviour. -/
def dedupFirst : List String → List String
  | [] => []
  | x :: xs => x :: (dedupFirst xs).filter (fun y => y ≠ x)

theorem dedupFirst_filter (p : String → Bool) (l : List String) :
    dedupFirst (l.filter p) = (dedupFirst l).filter p := by
  induction l with
  | nil => simp [dedupFirst]
  | cons x xs ih =>
    by_cases hp : p x
    · rw [List.filter_cons_of_pos hp]
      simp only [dedupFirst, List.filter_cons_of_pos hp, ih, List.filter_filter]
      congr 1
      apply List.filter_congr
      intro y _
      rw [Bool.and_comm]
    · rw [List.filter_cons_of_neg hp]
      simp only [dedupFirst, List.filter_cons_of_neg hp, ih, List.filter_filter]
      apply List.filter_congr
      intro y hy
      by_cases hpy : p y
      · have hyx : y ≠ x := fun h => hp (h ▸ hpy)
        simp [hpy, hyx]
      · simp [hpy]

theorem dedupFirst_idem (l : List String) :
    dedupFirst (dedupFirst l) = dedupFirst l := by
  induction l with
  | nil => rfl
  | cons x xs ih =>
    simp only [dedupFirst, dedupFirst_filter, ih]
    congr 1
    rw [List.filter_filter]
    apply List.filter_congr
    intro y _
    cases h : decide (y ≠ x) <;> simp [h]

theorem mem_dedupFirst (a : String) (l : List String) : a ∈ dedupFirst l ↔ a ∈ l := by
  induction l with
  | nil => simp [dedupFirst]
  | cons x xs ih =>
    by_cases hax : a = x
    · subst hax; simp [dedupFirst]
    · simp [dedupFirst, hax, List.mem_filter, ih]

theorem dedupFirst_nodup (l : List String) : (dedupFirst l).Nodup := by
  induction l with
  | nil => simp [dedupFirst]
  | cons x xs ih =>
    simp only [dedupFirst, List.nodup_cons]
    constructor
    · intro hx
      have := (List.mem_filter.mp hx).2
      simp at this
    · exact ih.filter _

theorem foldl_addSku (xs : List String) : ∀ acc : List String,
    xs.foldl addSku acc = acc ++ dedupFirst (xs.filter (fun y => y ∉ acc)) := by
  induction xs with
  | nil => intro acc; simp [dedupFirst]
  | cons x xs ih =>
    intro acc
    by_cases hx : x ∈ acc
    · simp only [List.foldl_cons, addSku, if_pos hx, ih]
      have : List.filter (fun y => decide (y ∉ acc)) (x :: xs)
           = List.filter (fun y => decide (y ∉ acc)) xs := by
        rw [List.filter_cons_of_neg]
        simp [hx]
      rw [this]
    · simp only [List.foldl_cons, addSku, if_neg hx, ih]
      have hstep : List.filter (fun y => decide (y ∉ acc ++ [x])) xs
          = List.filter (fun y => y ≠ x) (List.filter (fun y => decide (y ∉ acc)) xs) := by
        rw [List.filter_filter]
        apply List.filter_congr
        intro y _
        by_cases hyx : y = x
        · subst hyx; simp
        · by_cases hya : y ∈ acc <;> simp [hyx, hya]
      rw [hstep, dedupFirst_filter]
      have hpos : List.filter (fun y => decide (y ∉ acc)) (x :: xs)
          = x :: List.filter (fun y => decide (y ∉ acc)) xs := by
        rw [List.filter_cons_of_pos]
        simp [hx]
      rw [hpos]
      simp [dedupFirst]

theorem foldl_addSku_nil (xs : List String) :
    xs.foldl addSku [] = dedupFirst xs := by
  rw [foldl_addSku]
  have : List.filter (fun y => decide (y ∉ ([] : List String))) xs = xs := by
    apply List.filter_eq_self.mpr
    intro a _
    simp
  rw [this]
  rfl

theorem foldl_addSku_dedupFirst (ys acc : List String) :
    (dedupFirst ys).foldl addSku acc = ys.foldl addSku acc := by
  rw [foldl_addSku, foldl_addSku, ← dedupFirst_filter, dedupFirst_idem, dedupFirst_filter]

theorem capture_api_eq (captured : List String) (r : Response) :
    capture_api captured r = (listSkus r).foldl addSku captured := by
  have items_eq : ∀ (items : List Json) (acc : List String),
      items.foldl addItem acc = (items.filterMap skuOfItem).foldl addSku acc := by
    intro items
    induction items with
    | nil => intro acc; rfl
    | cons item rest ih =>
      intro acc
      cases item with
      | obj fields =>
        simp only [List.foldl_cons, addItem, List.filterMap_cons, skuOfItem]
        cases fields.lookup "skuId" with
        | none => exact ih acc
        | some v => simp only [Option.map_some, List.foldl_cons]; exact ih _
      | null => simpa [addItem, List.filterMap_cons, skuOfItem] using ih acc
      | bool b => simpa [addItem, List.filterMap_cons, skuOfItem] using ih acc
      | num n => simpa [addItem, List.filterMap_cons, skuOfItem] using ih acc
      | str s => simpa [addItem, List.filterMap_cons, skuOfItem] using ih acc
      | arr elems => simpa [addItem, List.filterMap_cons, skuOfItem] using ih acc
  by_cases hu : isApiUrl r.url
  · cases hb : r.body with
    | none => simp [capture_api, listSkus, hu, hb]
    | some body =>
      cases body with
      | obj fields =>
        cases hdata : (Json.get? (Json.obj fields) "data").getD (Json.obj []) with
        | obj dataFields =>
          cases hcl : dataFields.lookup "childList" with
          | none => simp [capture_api, listSkus, hu, hb, hdata, hcl]
          | some v =>
            cases v <;> simp [capture_api, listSkus, hu, hb, hdata, hcl, items_eq]
        | null => simp [capture_api, listSkus, hu, hb, hdata]
        | bool b => simp [capture_api, listSkus, hu, hb, hdata]
        | num n => simp [capture_api, listSkus, hu, hb, hdata]
        | str s => simp [capture_api, listSkus, hu, hb, hdata]
        | arr elems => simp [capture_api, listSkus, hu, hb, hdata]
      | null => simp [capture_api, listSkus, hu, hb]
      | bool b => simp [capture_api, listSkus, hu, hb]
      | num n => simp [capture_api, listSkus, hu, hb]
      | str s => simp [capture_api, listSkus, hu, hb]
      | arr elems => simp [capture_api, listSkus, hu, hb]
  · simp [capture_api, listSkus, hu]

theorem foldl_capture_api (rs : List Response) : ∀ acc : List String,
    rs.foldl capture_api acc = (pageStream rs).foldl addSku acc := by
  induction rs with
  | nil => intro acc; rfl
  | cons r rest ih =>
    intro acc
    simp only [List.foldl_cons, pageStream, List.map_cons, List.flatten_cons,
      List.foldl_append, capture_api_eq]
    exact ih _

theorem get_sku_ids_from_page_eq (rs : List Response) :
    get_sku_ids_from_page rs = dedupFirst (pageStream rs) := by
  rw [get_sku_ids_from_page, foldl_capture_api, foldl_addSku_nil]

theorem crawl_category_skus_eq (pages : List (List Response)) :
    crawl_category_skus pages = dedupFirst (catStream pages) := by
  have main : ∀ (ps : List (List Response)) (acc : List String),
      ps.foldl (fun all rs => (get_sku_ids_from_page rs).foldl addSku all) acc
        = (catStream ps).foldl addSku acc := by
    intro ps
    induction ps with
    | nil => intro acc; rfl
    | cons rs rest ih =>
      intro acc
      simp only [List.foldl_cons, catStream, List.map_cons, List.flatten_cons,
        List.foldl_append]
      rw [get_sku_ids_from_page_eq, foldl_addSku_dedupFirst]
      exact ih _
  rw [crawl_category_skus, main, foldl_addSku_nil]

/-- C1: over any sequence of list-API responses, possibly with duplicate
`skuId`s within a page or across the pages of one category run, the
identifier list accumulated by `crawl_category` is duplicate-free, equals
the first-seen-order deduplication of the full raw identifier stream (so
each identifier appears exactly once, at its first-seen position, and an
identifier collected on an earlier page is never re-emitted by a later
page), and contains exactly the identifiers that occur in the stream. -/
theorem discovery_dedup_unique_first_seen (pages : List (List Response)) :
    (crawl_category_skus pages).Nodup ∧
    crawl_category_skus pages = dedupFirst (catStream pages) ∧
    ∀ s, s ∈ crawl_category_skus pages ↔ s ∈ catStream pages := by
  refine ⟨?_, crawl_category_skus_eq pages, ?_⟩
  · rw [crawl_category_skus_eq]; exact dedupFirst_nodup _
  · intro s
    rw [crawl_category_skus_eq]
    exact mem_dedupFirst s _

/-! ### The scroll-saturation loop (`get_sku_ids_from_page`,
src/crawler_full.py lines 372-409)

Inputs per iteration `i`: `counts i` is the value of `len(captured_skus)`
read during iteration `i`, and the scroll geometry gives the `at_bottom`
test `target_scroll >= scroll_height - 100` (Python's possibly negative
right-hand side and Nat truncated subtraction agree here because the left
side is never negative). -/

/-- `at_bottom = target_scroll >= scroll_height - 100` (line 394). -/
def at_bottom (targetScroll scrollHeight : Nat → Nat) (i : Nat) : Bool :=
  targetScroll i ≥ scrollHeight i - 100

/-- The loop body of lines 378-404, threading `prev_count` and
`no_new_count`; the fuel is the number of remaining iterations
(`max_scrolls = 20` at the start).  Returns how many iterations executed
and whether the loop exited through `break`. -/
def scrollLoopAux (c : Nat → Nat) (b : Nat → Bool) : Nat → Nat → Nat → Nat → Nat × Bool
  | i, _, _, 0 => (i, false)
  | i, prev, noNew, fuel + 1 =>
    if c i = prev then
      if b i && decide (noNew + 1 ≥ 2) then (i + 1, true)
      else scrollLoopAux c b (i + 1) (c i) (noNew + 1) fuel
    else scrollLoopAux c b (i + 1) (c i) 0 fuel

/-- The whole scroll-saturation phase: `prev_count = 0`, `no_new_count = 0`,
`max_scrolls = 20`. -/
def scroll_saturation (counts targetScroll scrollHeight : Nat → Nat) : Nat × Bool :=
  scrollLoopAux counts (at_bottom targetScroll scrollHeight) 0 0 0 20

/-- The value `prev_count` holds when iteration `i` starts. -/
def prevCount (c : Nat → Nat) : Nat → Nat
  | 0 => 0
  | i + 1 => c i

/-- The value `no_new_count` holds when iteration `i` starts. -/
def noNewStreak (c : Nat → Nat) : Nat → Nat
  | 0 => 0
  | i + 1 => if c i = prevCount c i then noNewStreak c i + 1 else 0

/-- Whether iteration `i` observes no new identifiers. -/
def stagnantB (c : Nat → Nat) (i : Nat) : Bool := c i == prevCount c i

/-- Whether the loop's `break` fires during iteration `i`: the iteration is
stagnant, the page is at the bottom, and the incremented `no_new_count`
reaches 2 (so the previous iteration was stagnant too). -/
def breakCondB (c : Nat → Nat) (b : Nat → Bool) (i : Nat) : Bool :=
  stagnantB c i && b i && decide (noNewStreak c i + 1 ≥ 2)

/-- History-free restatement of the loop: run until `breakCondB` or fuel. -/
def specExit (c : Nat → Nat) (b : Nat → Bool) : Nat → Nat → Nat × Bool
  | i, 0 => (i, false)
  | i, fuel + 1 =>
    if breakCondB c b i then (i + 1, true) else specExit c b (i + 1) fuel

theorem scrollLoopAux_eq_specExit (c : Nat → Nat) (b : Nat → Bool) :
    ∀ fuel i, scrollLoopAux c b i (prevCount c i) (noNewStreak c i) fuel
      = specExit c b i fuel := by
  intro fuel
  induction fuel with
  | zero => intro i; rfl
  | succ fuel ih =>
    intro i
    by_cases hst : c i = prevCount c i
    · have hnn : noNewStreak c (i + 1) = noNewStreak c i + 1 := by
        simp [noNewStreak, hst]
      have hbc : breakCondB c b i = (b i && decide (noNewStreak c i + 1 ≥ 2)) := by
        simp [breakCondB, stagnantB, hst]
      cases hbr : (b i && decide (noNewStreak c i + 1 ≥ 2)) with
      | true =>
        simp only [scrollLoopAux, specExit, if_pos hst, hbc, hbr, if_true]
      | false =>
        simp only [scrollLoopAux, specExit, if_pos hst, hbc, hbr,
          Bool.false_eq_true, if_false]
        have h2 := ih (i + 1)
        rw [hnn] at h2
        simp only [prevCount] at h2
        exact h2
    · have hnn : noNewStreak c (i + 1) = 0 := by
        simp [noNewStreak, hst]
      have hbc : breakCondB c b i = false := by
        simp [breakCondB, stagnantB, hst]
      simp only [scrollLoopAux, specExit, if_neg hst, hbc, Bool.false_eq_true, if_false]
      have h2 := ih (i + 1)
      rw [hnn] at h2
      simp only [prevCount] at h2
      exact h2

theorem scroll_saturation_eq (counts targetScroll scrollHeight : Nat → Nat) :
    scroll_saturation counts targetScroll scrollHeight
      = specExit counts (at_bottom targetScroll scrollHeight) 0 20 :=
  scrollLoopAux_eq_specExit counts (at_bottom targetScroll scrollHeight) 20 0

theorem specExit_le (c : Nat → Nat) (b : Nat → Bool) :
    ∀ fuel i, (specExit c b i fuel).1 ≤ i + fuel := by
  intro fuel
  induction fuel with
  | zero => intro i; simp [specExit]
  | succ fuel ih =>
    intro i
    by_cases h : breakCondB c b i = true
    · simp only [specExit, h, if_true]
      omega
    · simp only [specExit, h, Bool.false_eq_true, if_false]
      have := ih (i + 1)
      omega

theorem specExit_first_break (c : Nat → Nat) (b : Nat → Bool) :
    ∀ fuel i k, i ≤ k → k < i + fuel →
      (∀ j, i ≤ j → j < k → breakCondB c b j = false) →
      breakCondB c b k = true →
      specExit c b i fuel = (k + 1, true) := by
  intro fuel
  induction fuel with
  | zero => intro i k h1 h2 _ _; omega
  | succ fuel ih =>
    intro i k h1 h2 hnone hk
    by_cases hik : i = k
    · subst hik
      simp [specExit, hk]
    · have hlt : i < k := by omega
      have hi : breakCondB c b i = false := hnone i (le_refl i) hlt
      simp only [specExit, hi, Bool.false_eq_true, if_false]
      exact ih (i + 1) k (by omega) (by omega)
        (fun j hj1 hj2 => hnone j (by omega) hj2) hk

theorem specExit_break_imp (c : Nat → Nat) (b : Nat → Bool) :
    ∀ fuel i m, specExit c b i fuel = (m, true) →
      i + 1 ≤ m ∧ breakCondB c b (m - 1) = true := by
  intro fuel
  induction fuel with
  | zero =>
    intro i m h
    simp [specExit] at h
  | succ fuel ih =>
    intro i m h
    by_cases hbr : breakCondB c b i = true
    · simp only [specExit, hbr, if_true] at h
      have hm : m = i + 1 := by
        have := congrArg Prod.fst h
        simp at this
        omega
      subst hm
      simp [hbr]
    · simp only [specExit, hbr, Bool.false_eq_true, if_false] at h
      have := ih (i + 1) m h
      exact ⟨by omega, this.2⟩

theorem noNewStreak_pos_imp (c : Nat → Nat) (i : Nat)
    (h : 1 ≤ noNewStreak c i) : 1 ≤ i ∧ c (i - 1) = prevCount c (i - 1) := by
  cases i with
  | zero => simp [noNewStreak] at h
  | succ j =>
    refine ⟨by omega, ?_⟩
    by_cases hst : c j = prevCount c j
    · simpa using hst
    · simp [noNewStreak, hst] at h

/-- C2: for every sequence of observed identifier counts and scroll
geometry, the scroll-saturation loop runs at most 20 iterations, even when
no new identifiers ever arrive; it exits through `break` at the first
iteration whose observation is stagnant, at the bottom, and preceded by a
stagnant iteration (so before the cap whenever such an iteration occurs
early enough); and any `break` exit after `m + 1` iterations requires
iteration `m` to be at the bottom and iterations `m` and `m - 1` to both be
stagnant — a single stagnant iteration never terminates the loop. -/
theorem scroll_loop_cap_and_two_strike (counts targetScroll scrollHeight : Nat → Nat) :
    (scroll_saturation counts targetScroll scrollHeight).1 ≤ 20
    ∧ (∀ k, k < 20 →
        (∀ j, j < k → breakCondB counts (at_bottom targetScroll scrollHeight) j = false) →
        breakCondB counts (at_bottom targetScroll scrollHeight) k = true →
        scroll_saturation counts targetScroll scrollHeight = (k + 1, true))
    ∧ (∀ m, scroll_saturation counts targetScroll scrollHeight = (m + 1, true) →
        counts m = prevCount counts m
        ∧ at_bottom targetScroll scrollHeight m = true
        ∧ 1 ≤ m ∧ counts (m - 1) = prevCount counts (m - 1)) := by
  refine ⟨?_, ?_, ?_⟩
  · rw [scroll_saturation_eq]
    simpa using specExit_le counts (at_bottom targetScroll scrollHeight) 20 0
  · intro k hk hnone hbr
    rw [scroll_saturation_eq]
    exact specExit_first_break _ _ 20 0 k (Nat.zero_le k) (by omega)
      (fun j _ hj2 => hnone j hj2) hbr
  · intro m h
    rw [scroll_saturation_eq] at h
    have hmain := specExit_break_imp _ _ 20 0 (m + 1) h
    have hbc := hmain.2
    simp only [Nat.add_sub_cancel] at hbc
    have h1 : stagnantB counts m = true := by
      have := hbc
      simp only [breakCondB, Bool.and_eq_true, decide_eq_true_eq] at this
      exact this.1.1
    have h2 : at_bottom targetScroll scrollHeight m = true := by
      simp only [breakCondB, Bool.and_eq_true, decide_eq_true_eq] at hbc
      exact hbc.1.2
    have h3 : 1 ≤ noNewStreak counts m := by
      simp only [breakCondB, Bool.and_eq_true, decide_eq_true_eq] at hbc
      omega
    have h4 := noNewStreak_pos_imp counts m h3
    refine ⟨?_, h2, h4.1, h4.2⟩
    simpa [stagnantB] using h1

/-- Concrete run for C2: counts constantly zero and the page at the bottom
from the start; the break condition first holds at iteration 1, so the loop
stops after 2 iterations, well before the cap of 20. -/
theorem scroll_loop_cap_and_two_strike_witness :
    scroll_saturation (fun _ => 0) (fun _ => 1000) (fun _ => 500) = (2, true) :=
  (scroll_loop_cap_and_two_strike (fun _ => 0) (fun _ => 1000) (fun _ => 500)).2.1 1
    (by decide)
    (fun j hj => by
      have hj0 : j = 0 := by omega
      subst hj0
      rfl)
    (by rfl)

/-! ### The detail-API listener (`get_detail_from_api.capture_detail_api`,
src/crawler_full.py lines 415-425)

The listener state is `detail_data['api_data']`, modelled as an
`Option Json` (`none` while no matching response has been seen).  Each
matching response executes `detail_data['api_data'] = result`, overwriting
whatever was stored before. -/

/-- One step of `capture_detail_api`. -/
def capture_detail_api (st : Option Json) (r : Response) : Option Json :=
  if isApiUrl r.url then
    match r.body with
    | none => st
    | some body =>
      match body with
      | .obj _ =>
        match (body.get? "result").getD (Json.obj []) with
        | .obj resFields =>
          match resFields.lookup "viewMasterMapDTO" with
          | some _ => some (Json.obj resFields)
          | none => st
        | _ => st
      | _ => st
  else st

/-- The `api_data` captured over a detail page's response sequence. -/
def get_detail_api_data (rs : List Response) : Option Json :=
  rs.foldl capture_detail_api none

/-- The `result` object a single response would store, if it matches. -/
def matchResult (r : Response) : Option Json :=
  if isApiUrl r.url then
    match r.body with
    | none => none
    | some body =>
      match body with
      | .obj _ =>
        match (body.get? "result").getD (Json.obj []) with
        | .obj resFields =>
          match resFields.lookup "viewMasterMapDTO" with
          | some _ => some (Json.obj resFields)
          | none => none
        | _ => none
      | _ => none
  else none

theorem capture_detail_api_eq (st : Option Json) (r : Response) :
    capture_detail_api st r = (matchResult r).or st := by
  by_cases hu : isApiUrl r.url
  · cases hb : r.body with
    | none => simp [capture_detail_api, matchResult, hu, hb]
    | some body =>
      cases body with
      | obj fields =>
        cases hres : (Json.get? (Json.obj fields) "result").getD (Json.obj []) with
        | obj resFields =>
          cases hvm : resFields.lookup "viewMasterMapDTO" with
          | none => simp [capture_detail_api, matchResult, hu, hb, hres, hvm]
          | some v => simp [capture_detail_api, matchResult, hu, hb, hres, hvm]
        | null => simp [capture_detail_api, matchResult, hu, hb, hres]
        | bool b => simp [capture_detail_api, matchResult, hu, hb, hres]
        | num n => simp [capture_detail_api, matchResult, hu, hb, hres]
        | str s => simp [capture_detail_api, matchResult, hu, hb, hres]
        | arr elems => simp [capture_detail_api, matchResult, hu, hb, hres]
      | null => simp [capture_detail_api, matchResult, hu, hb]
      | bool b => simp [capture_detail_api, matchResult, hu, hb]
      | num n => simp [capture_detail_api, matchResult, hu, hb]
      | str s => simp [capture_detail_api, matchResult, hu, hb]
      | arr elems => simp [capture_detail_api, matchResult, hu, hb]
  · simp [capture_detail_api, matchResult, hu]

theorem getLast?_cons_or (v : Json) (l : List Json) (st : Option Json) :
    ((v :: l).getLast?).or st = (l.getLast?).or (some v) := by
  cases l with
  | nil => simp
  | cons b t =>
    rw [List.getLast?_cons_cons]
    have hsome : ((b :: t).getLast?).isSome := by
      rw [List.getLast?_isSome]
      simp
    cases hl : (b :: t).getLast? with
    | none => rw [hl] at hsome; simp at hsome
    | some x => simp

theorem foldl_capture_detail (rs : List Response) : ∀ st : Option Json,
    rs.foldl capture_detail_api st = ((rs.filterMap matchResult).getLast?).or st := by
  induction rs with
  | nil => intro st; simp
  | cons r rest ih =>
    intro st
    simp only [List.foldl_cons, List.filterMap_cons]
    cases hm : matchResult r with
    | none =>
      rw [capture_detail_api_eq, hm, Option.none_or]
      exact ih st
    | some v =>
      rw [capture_detail_api_eq, hm]
      rw [ih ((some v).or st), getLast?_cons_or]
      simp

/-- Concrete responses for the C3 counterexample: two responses on the same
detail page, both carrying a `result` object with a `viewMasterMapDTO` key,
distinguishable by their `tag` field. -/
def detailResp1 : Response :=
  ⟨"https://api.m.jd.com/client.action",
   some (Json.obj [("result",
     Json.obj [("viewMasterMapDTO", Json.obj []), ("tag", Json.num 1)])])⟩

/-- Second matching response of the C3 counterexample. -/
def detailResp2 : Response :=
  ⟨"https://api.m.jd.com/client.action",
   some (Json.obj [("result",
     Json.obj [("viewMasterMapDTO", Json.obj []), ("tag", Json.num 2)])])⟩

/-- C3 counterexample: with two matching responses on the same page, the
captured payload is the second (last) response's `result`, not the first
match as claimed — `capture_detail_api` overwrites `detail_data['api_data']`
on every match instead of ignoring later matches. -/
theorem detail_capture_not_first_match :
    get_detail_api_data [detailResp1, detailResp2]
      = some (Json.obj [("viewMasterMapDTO", Json.obj []), ("tag", Json.num 2)])
    ∧ get_detail_api_data [detailResp1, detailResp2]
      ≠ some (Json.obj [("viewMasterMapDTO", Json.obj []), ("tag", Json.num 1)]) := by
  constructor
  · rfl
  · intro h
    rw [show get_detail_api_data [detailResp1, detailResp2]
        = some (Json.obj [("viewMasterMapDTO", Json.obj []), ("tag", Json.num 2)]) from rfl] at h
    simp at h

/-- C3 (amended): over any sequence of responses observed while fetching one
product's detail page, the captured canonical payload is the `result` object
of the LAST response whose JSON body is an object with a `result` object
containing a `viewMasterMapDTO` key (each later matching response replaces
the previously captured payload); it is `none` exactly when no response
matches. -/
theorem detail_capture_last_match (rs : List Response) :
    get_detail_api_data rs = (rs.filterMap matchResult).getLast? := by
  rw [get_detail_api_data, foldl_capture_detail]
  simp

/-! ### Product records and `extract_product_info`
(src/crawler_full.py lines 484-589)

Python stores whatever JSON value a `.get` returns, so record fields that the
code assigns from raw payload values are modelled as `Json`; `sku_id` (always
passed through `str()`) and `category` / `detail_images` (always built from
strings) keep their concrete types.  Two Python behaviours are modelled as
no-ops and are outside every claim's inputs: calling `.get` on a non-dict
value and iterating a non-iterable loop source raise uncaught exceptions in
`extract_product_info` (aborting the run through the emergency-export path),
and storing an unhashable (list/dict) key into `info['params']` raises
`TypeError`. -/

/-- Python `==` on the hashable scalar JSON values that can reach dict keys
or image-URL comparisons (`True == 1` holds in Python).  Composite values
compare by structure in Python; they never reach a dict key (unhashable)
and no claim compares composite values, so they are left inequal here. -/
def pyEqScalar : Json → Json → Bool
  | .str a, .str b => a == b
  | .num a, .num b => a == b
  | .bool a, .bool b => a == b
  | .bool a, .num b => (if a then (1 : Int) else 0) == b
  | .num a, .bool b => a == (if b then (1 : Int) else 0)
  | .null, .null => true
  | _, _ => false

/-- Whether a JSON value is hashable in Python (usable as a dict key). -/
def isHashable : Json → Bool
  | .arr _ => false
  | .obj _ => false
  | _ => true

/-- Lookup in the `info['params']` dict (Python `name in info['params']`
and `info['params'][name]`). -/
def dlookup : List (Json × Json) → Json → Option Json
  | [], _ => none
  | p :: rest, k => if pyEqScalar p.1 k then some p.2 else dlookup rest k

/-- Python `d[k] = v` on an insertion-ordered dict: overwrite the value in
place when the key is present (keeping the original key object), append
otherwise.  An unhashable key, which raises `TypeError` in Python, leaves
the dict unchanged here. -/
def dictAssign (d : List (Json × Json)) (k v : Json) : List (Json × Json) :=
  if isHashable k then
    if (dlookup d k).isSome then
      d.map (fun p => if pyEqScalar p.1 k then (p.1, v) else p)
    else d ++ [(k, v)]
  else d

/-- Loop body over `spec['specificationDetailList']` (lines 559-564). -/
def addSpecDetail (params : List (Json × Json)) (item : Json) : List (Json × Json) :=
  match item with
  | .obj fields =>
    let name := (fields.lookup "attributeName").getD (Json.str "")
    let value := (fields.lookup "attributes").getD (Json.str "")
    if jsonTruthy name && jsonTruthy value then dictAssign params name value else params
  | _ => params

/-- Inner loop body over `group['AttributeList']` (lines 568-573): the
second representation only writes keys not already present. -/
def addSpecGroupAttr (params : List (Json × Json)) (attr : Json) : List (Json × Json) :=
  match attr with
  | .obj fields =>
    let name := (fields.lookup "attributeName").getD (Json.str "")
    let value := (fields.lookup "attributes").getD (Json.str "")
    if jsonTruthy name && jsonTruthy value && (dlookup params name).isNone then
      dictAssign params name value
    else params
  | _ => params

/-- Loop body over `spec['specificationList']` (lines 566-573). -/
def addSpecGroup (params : List (Json × Json)) (group : Json) : List (Json × Json) :=
  match group with
  | .obj fields =>
    match fields.lookup "AttributeList" with
    | some (.arr attrs) => attrs.foldl addSpecGroupAttr params
    | _ => params
  | _ => params

/-- The whole specification merge (lines 557-573): first the
`specificationDetailList` representation, then the `specificationList`
representation, into the running `info['params']` dict. -/
def mergeSpecifications (spec : Json) (params0 : List (Json × Json)) :
    List (Json × Json) :=
  match spec with
  | .obj _ =>
    let p1 :=
      match spec.get? "specificationDetailList" with
      | some (.arr items) => items.foldl addSpecDetail params0
      | _ => params0
    match spec.get? "specificationList" with
    | some (.arr groups) => groups.foldl addSpecGroup p1
    | _ => p1
  | _ => params0

/-- Loop body over `master_dto['wareImage']` (lines 549-553). -/
def addMainImage (acc : List Json) (img : Json) : List Json :=
  match img with
  | .obj fields =>
    let big_url := (fields.lookup "big").getD (Json.str "")
    if jsonTruthy big_url && !(acc.any (fun u => pyEqScalar u big_url)) then
      acc ++ [big_url]
    else acc
  | _ => acc

/-- Characters ending the captured group of the detail-image regex
`[^"\x27\s]+` (double quote, single quote, Python whitespace). -/
def urlStopChar (c : Char) : Bool :=
  c == '"' || c == Char.ofNat 39 || c == ' ' || c == '\t' || c == '\n'
    || c == '\r' || c == Char.ofNat 11 || c == Char.ofNat 12

/-- Quote characters accepted by the regex around the captured group. -/
def quoteChar (c : Char) : Bool := c == '"' || c == Char.ofNat 39

/-- One match attempt of the regex at the head of `s` (after an attribute
marker): expect a quote, a non-empty run of allowed characters, then a
quote; returns the captured run and the rest after the closing quote. -/
def matchQuotedUrl (s : List Char) : Option (String × List Char) :=
  match s with
  | [] => none
  | q :: rest =>
    if quoteChar q then
      let run := rest.takeWhile (fun c => !urlStopChar c)
      match rest.drop run.length with
      | q2 :: afterQuote =>
        if !run.isEmpty && quoteChar q2 then some (⟨run⟩, afterQuote) else none
      | [] => none
    else none

/-- One match attempt of `(?:src|data-lazyload)=["\x27]([^"\x27\s]+)["\x27]`
at the current position. -/
def matchSrcAt (s : List Char) : Option (String × List Char) :=
  if "src=".data.isPrefixOf s then matchQuotedUrl (s.drop 4)
  else if "data-lazyload=".data.isPrefixOf s then matchQuotedUrl (s.drop 14)
  else none

/-- `re.findall` for the detail-image regex: scan left to right, emit each
non-overlapping match's captured group, resume after the closing quote. -/
def findallSrcAux : Nat → List Char → List String
  | 0, _ => []
  | _, [] => []
  | fuel + 1, s@(_ :: rest) =>
    match matchSrcAt s with
    | some (url, remaining) => url :: findallSrcAux fuel remaining
    | none => findallSrcAux fuel rest

/-- `re.findall(r'(?:src|data-lazyload)=["\x27]([^"\x27\s]+)["\x27]', desc)`. -/
def findallSrc (desc : String) : List String :=
  findallSrcAux desc.data.length desc.data

/-- Loop body over the regex matches (lines 580-584): normalize
protocol-relative URLs, keep only CDN URLs, deduplicate on the final value
(unlike `_extract_detail_images`, the dedup here happens after no rewrite,
so it is a genuine dedup). -/
def addDescImage (acc : List String) (u : String) : List String :=
  let u2 := if pyStartsWith u "//" then "https:" ++ u else u
  if strContains u2 "360buyimg" && !(acc.contains u2) then acc ++ [u2] else acc

/-- The canonical product record.  Defaults mirror the `info` dict
initialized at lines 486-500; they also coincide with the per-field
defaults `save_to_excel` uses when reading a record, so the stub record
`\x7b'sku_id': sku_id\x7d` appended on a failed fetch behaves exactly like
this structure with only `sku_id` set. -/
structure ProductInfo where
  sku_id : String := ""
  name : Json := Json.str ""
  brand : Json := Json.str ""
  main_images : List Json := []
  params : List (Json × Json) := []
  detail_images : List String := []
  category : Json := Json.str ""
  shelf_life : Json := Json.str ""
  manufacturing_date : Json := Json.str ""
  jd_price : Json := Json.str ""
  retail_price : Json := Json.str ""
  main_price : Json := Json.str ""
  minimum_purchase : Json := Json.num 9999

/-- The freshly initialized `info` dict of lines 486-500. -/
def emptyProductInfo : ProductInfo := {}

/-- `extract_product_info` (lines 484-589). -/
def extract_product_info (api_data : Json) (html_detail_images : List String) :
    ProductInfo :=
  if !(jsonTruthy api_data) then emptyProductInfo else
  let title_dto := (api_data.get? "viewTitleDTO").getD (Json.obj [])
  let name := (title_dto.get? "title").getD (Json.str "")
  let brand_dto := (api_data.get? "viewBrandDTO").getD (Json.obj [])
  let brand0 := (brand_dto.get? "brandName").getD (Json.str "")
  let common_dto := (api_data.get? "viewCommonDTO").getD (Json.obj [])
  let brand := if jsonTruthy brand0 then brand0
    else (common_dto.get? "brandName").getD (Json.str "")
  let sku_id := pyStr ((common_dto.get? "skuId").getD (Json.str ""))
  let shelf_life := (common_dto.get? "shelfLife").getD (Json.str "")
  let manufacturing_date := (common_dto.get? "manufacturingDate").getD (Json.str "")
  let cat1 := (common_dto.get? "category_name1").getD (Json.str "")
  let cat2 := (common_dto.get? "category_name2").getD (Json.str "")
  let category : Json :=
    if jsonTruthy cat1 && jsonTruthy cat2 then Json.str (pyStr cat1 ++ " > " ++ pyStr cat2)
    else if jsonTruthy cat1 then cat1 else cat2
  let price_dto := (api_data.get? "viewPriceDTO").getD (Json.obj [])
  let price_info := (price_dto.get? "priceInfo").getD (Json.obj [])
  let jd_price :=
    match price_info with
    | .obj _ =>
      match (price_info.get? "jprice").getD (Json.obj []) with
      | .obj jpriceFields => ((Json.obj jpriceFields).get? "value").getD (Json.str "")
      | _ => Json.str ""
    | _ => Json.str ""
  let retail_price :=
    match price_info with
    | .obj _ =>
      match (price_info.get? "mainJdPrice").getD (Json.obj []) with
      | .obj mainJdFields => ((Json.obj mainJdFields).get? "value").getD (Json.str "")
      | _ => Json.str ""
    | _ => Json.str ""
  let main_price :=
    match (price_dto.get? "mainPositionPrice").getD (Json.obj []) with
    | .obj mpFields => ((Json.obj mpFields).get? "value").getD (Json.str "")
    | _ => Json.str ""
  let minimum_purchase :=
    match (api_data.get? "viewSelectedDTO").getD (Json.obj []) with
    | .obj selFields =>
      match (Json.obj selFields).get? "minimumPurchaseLimit" with
      | some Json.null => Json.num 9999
      | some v => v
      | none => Json.num 9999
    | _ => Json.num 9999
  let master_dto := (api_data.get? "viewMasterMapDTO").getD (Json.obj [])
  let main_images :=
    match master_dto.get? "wareImage" with
    | some (.arr imgs) => imgs.foldl addMainImage []
    | _ => []
  let graphic_dto := (api_data.get? "viewGraphicDetailDTO").getD (Json.obj [])
  let spec := (graphic_dto.get? "specification").getD (Json.obj [])
  let params := mergeSpecifications spec []
  let product_desc := (graphic_dto.get? "productDesc").getD (Json.str "")
  let descImages :=
    match product_desc with
    | .str s => if s != "" then (findallSrc s).foldl addDescImage [] else []
    | _ => []
  let detail_images :=
    if descImages.isEmpty && !html_detail_images.isEmpty then html_detail_images
    else descImages
  { sku_id := sku_id, name := name, brand := brand, main_images := main_images,
    params := params, detail_images := detail_images, category := category,
    shelf_life := shelf_life, manufacturing_date := manufacturing_date,
    jd_price := jd_price, retail_price := retail_price, main_price := main_price,
    minimum_purchase := minimum_purchase }

/-- What one call to `get_detail_from_api` hands back to `crawl_category`:
the dict `detail_data`, with its two optional keys. -/
structure DetailResult where
  api_data : Option Json := none
  html_detail_images : List String := []

/-- The record-building step of `crawl_category` for one requested
identifier (src/crawler_full.py lines 620-641): a truthy captured payload
goes through `extract_product_info` (substituting the requested identifier
when the payload yields an empty one); otherwise the stub record
`\x7b'sku_id': sku_id\x7d` is appended. -/
def appendRecord (skuId : String) (dr : DetailResult) : ProductInfo :=
  let api_data := dr.api_data.getD (Json.obj [])
  if jsonTruthy api_data then
    let p := extract_product_info api_data dr.html_detail_images
    if p.sku_id = "" then { p with sku_id := skuId } else p
  else
    { emptyProductInfo with sku_id := skuId }

/-- The whole detail-harvest phase of `crawl_category`: one record per
requested identifier, in order. -/
def crawl_category_products (skuIds : List String) (fetch : String → DetailResult) :
    List ProductInfo :=
  skuIds.map (fun skuId => appendRecord skuId (fetch skuId))

/-- C4 counterexample: the empty string is a reachable requested identifier
(a list-API item carrying an empty `skuId` string delivers it verbatim),
and the record built for it from an entirely absent detail payload has an
EMPTY identifier — refuting the claim's "non-empty identifier equal to the
requested identifier" as quantified over every requested identifier. -/
theorem absent_payload_empty_id_counterexample :
    listSkus ⟨"https://api.m.jd.com/x",
        some (Json.obj [("data", Json.obj [("childList",
          Json.arr [Json.obj [("skuId", Json.str "")]])])])⟩ = [""]
    ∧ (appendRecord "" { api_data := none }).sku_id = ""
    ∧ ¬ ((appendRecord "" { api_data := none }).sku_id ≠ "") := by
  refine ⟨by decide, by decide, by decide⟩

/-- C4 (amended): for every non-empty requested identifier whose detail
fetch yields an entirely absent detail payload, the appended record carries
exactly the requested identifier (hence non-empty) and every other field at
its default — empty strings and lists and the minimum-purchase sentinel
9999; moreover, in a product list built from non-empty requested
identifiers, every record has a non-empty identifier whatever the fetch
results are. -/
theorem absent_payload_record_stub (skuId : String) (h : skuId ≠ "")
    (dr : DetailResult) (hd : dr.api_data = none) :
    appendRecord skuId dr = { emptyProductInfo with sku_id := skuId }
    ∧ (appendRecord skuId dr).sku_id = skuId
    ∧ (appendRecord skuId dr).sku_id ≠ ""
    ∧ (appendRecord skuId dr).name = Json.str ""
    ∧ (appendRecord skuId dr).brand = Json.str ""
    ∧ (appendRecord skuId dr).main_images = []
    ∧ (appendRecord skuId dr).params = []
    ∧ (appendRecord skuId dr).detail_images = []
    ∧ (appendRecord skuId dr).category = Json.str ""
    ∧ (appendRecord skuId dr).shelf_life = Json.str ""
    ∧ (appendRecord skuId dr).manufacturing_date = Json.str ""
    ∧ (appendRecord skuId dr).jd_price = Json.str ""
    ∧ (appendRecord skuId dr).retail_price = Json.str ""
    ∧ (appendRecord skuId dr).main_price = Json.str ""
    ∧ (appendRecord skuId dr).minimum_purchase = Json.num 9999
    ∧ (∀ ids fetch, (∀ i ∈ ids, i ≠ ("" : String)) →
        ∀ p ∈ crawl_category_products ids fetch, p.sku_id ≠ "") := by
  have hstub : appendRecord skuId dr = { emptyProductInfo with sku_id := skuId } := by
    simp [appendRecord, hd, jsonTruthy]
  refine ⟨hstub, by rw [hstub], by rw [hstub]; exact h, by rw [hstub]; rfl,
    by rw [hstub]; rfl, by rw [hstub]; rfl, by rw [hstub]; rfl, by rw [hstub]; rfl,
    by rw [hstub]; rfl, by rw [hstub]; rfl, by rw [hstub]; rfl, by rw [hstub]; rfl,
    by rw [hstub]; rfl, by rw [hstub]; rfl, by rw [hstub]; rfl, ?_⟩
  intro ids fetch hne p hp
  simp only [crawl_category_products, List.mem_map] at hp
  obtain ⟨i, hi, hpe⟩ := hp
  have hine := hne i hi
  subst hpe
  unfold appendRecord
  by_cases htr : jsonTruthy ((fetch i).api_data.getD (Json.obj [])) = true
  · simp only [htr, if_true]
    by_cases hsk :
        (extract_product_info ((fetch i).api_data.getD (Json.obj []))
          (fetch i).html_detail_images).sku_id = ""
    · simpa [hsk] using hine
    · simp [hsk]
  · simp only [Bool.not_eq_true] at htr
    simpa [htr] using hine

/-- Concrete instance for C4: requested identifier "100" with an absent
payload yields the identifier-only stub record with the 9999 sentinel. -/
theorem absent_payload_record_stub_witness :
    appendRecord "100" { api_data := none }
      = { emptyProductInfo with sku_id := "100" }
    ∧ (appendRecord "100" { api_data := none }).minimum_purchase = Json.num 9999 := by
  have h := absent_payload_record_stub "100" (by decide) { api_data := none } rfl
  exact ⟨h.1, by rw [h.1]; rfl⟩

/-! ### First-source precedence of the specification merge (C6) -/

theorem dlookup_append_some (d e : List (Json × Json)) (k v : Json)
    (h : dlookup d k = some v) : dlookup (d ++ e) k = some v := by
  induction d with
  | nil => simp [dlookup] at h
  | cons p rest ih =>
    by_cases hp : pyEqScalar p.1 k = true
    · simp only [dlookup, hp, if_true] at h
      simpa [List.cons_append, dlookup, hp] using h
    · simp only [dlookup, hp, Bool.false_eq_true, if_false] at h
      simp only [List.cons_append, dlookup, hp, Bool.false_eq_true, if_false]
      exact ih h

theorem dlookup_none_forall (d : List (Json × Json)) (k : Json)
    (h : dlookup d k = none) : ∀ p ∈ d, pyEqScalar p.1 k = false := by
  induction d with
  | nil => intro p hp; simp at hp
  | cons q rest ih =>
    intro p hp
    by_cases hq : pyEqScalar q.1 k = true
    · simp [dlookup, hq] at h
    · rcases List.mem_cons.mp hp with hpq | hpr
      · subst hpq
        simpa using hq
      · simp only [dlookup, hq, Bool.false_eq_true, if_false] at h
        exact ih h p hpr

theorem dictAssign_preserves_some (d : List (Json × Json)) (k v key val : Json)
    (hnone : dlookup d key = none)
    (h : dlookup d k = some v) : dlookup (dictAssign d key val) k = some v := by
  unfold dictAssign
  by_cases hh : isHashable key = true
  · simp only [hh, if_true, hnone, Option.isSome_none, Bool.false_eq_true, if_false]
    exact dlookup_append_some d [(key, val)] k v h
  · simp only [hh, Bool.false_eq_true, if_false]
    exact h

theorem addSpecGroupAttr_preserves_some (d : List (Json × Json)) (attr k v : Json)
    (h : dlookup d k = some v) : dlookup (addSpecGroupAttr d attr) k = some v := by
  unfold addSpecGroupAttr
  cases attr with
  | obj fields =>
    set name := (fields.lookup "attributeName").getD (Json.str "") with hname
    set value := (fields.lookup "attributes").getD (Json.str "") with hvalue
    by_cases hc : (jsonTruthy name && jsonTruthy value && (dlookup d name).isNone) = true
    · simp only [hc, if_true]
      have hnone : dlookup d name = none := by
        simp only [Bool.and_eq_true, Option.isNone_iff_eq_none] at hc
        exact hc.2
      exact dictAssign_preserves_some d k v name value hnone h
    · simp only [hc, Bool.false_eq_true, if_false]
      exact h
  | null => exact h
  | bool b => exact h
  | num n => exact h
  | str s => exact h
  | arr elems => exact h

theorem foldl_addSpecGroupAttr_preserves_some (attrs : List Json) :
    ∀ (d : List (Json × Json)) (k v : Json), dlookup d k = some v →
      dlookup (attrs.foldl addSpecGroupAttr d) k = some v := by
  induction attrs with
  | nil => intro d k v h; exact h
  | cons attr rest ih =>
    intro d k v h
    exact ih _ k v (addSpecGroupAttr_preserves_some d attr k v h)

theorem addSpecGroup_preserves_some (d : List (Json × Json)) (group k v : Json)
    (h : dlookup d k = some v) : dlookup (addSpecGroup d group) k = some v := by
  cases group with
  | obj fields =>
    cases hal : fields.lookup "AttributeList" with
    | none => simpa [addSpecGroup, hal] using h
    | some w =>
      cases w with
      | arr attrs =>
        simp only [addSpecGroup, hal]
        exact foldl_addSpecGroupAttr_preserves_some attrs d k v h
      | null => simpa [addSpecGroup, hal] using h
      | bool b => simpa [addSpecGroup, hal] using h
      | num n => simpa [addSpecGroup, hal] using h
      | str s => simpa [addSpecGroup, hal] using h
      | obj fs => simpa [addSpecGroup, hal] using h
  | null => simpa [addSpecGroup] using h
  | bool b => simpa [addSpecGroup] using h
  | num n => simpa [addSpecGroup] using h
  | str s => simpa [addSpecGroup] using h
  | arr elems => simpa [addSpecGroup] using h

theorem foldl_addSpecGroup_preserves_some (groups : List Json) :
    ∀ (d : List (Json × Json)) (k v : Json), dlookup d k = some v →
      dlookup (groups.foldl addSpecGroup d) k = some v := by
  induction groups with
  | nil => intro d k v h; exact h
  | cons g rest ih =>
    intro d k v h
    exact ih _ k v (addSpecGroup_preserves_some d g k v h)

/-- Pairwise-distinct keys of the `info['params']` dict. -/
def KeysDistinct (d : List (Json × Json)) : Prop :=
  d.Pairwise (fun a b => pyEqScalar a.1 b.1 = false)

theorem dictAssign_keysDistinct (d : List (Json × Json)) (k v : Json)
    (h : KeysDistinct d) : KeysDistinct (dictAssign d k v) := by
  unfold dictAssign
  by_cases hh : isHashable k = true
  · simp only [hh, if_true]
    by_cases hs : (dlookup d k).isSome = true
    · simp only [hs, if_true]
      refine List.Pairwise.map _ ?_ h
      intro a b hab
      have ha : (if pyEqScalar a.1 k then (a.1, v) else a).1 = a.1 := by
        by_cases hc : pyEqScalar a.1 k = true <;> simp [hc]
      have hb : (if pyEqScalar b.1 k then (b.1, v) else b).1 = b.1 := by
        by_cases hc : pyEqScalar b.1 k = true <;> simp [hc]
      rw [ha, hb]
      exact hab
    · simp only [hs, Bool.false_eq_true, if_false]
      have hnone : dlookup d k = none := by
        cases hcase : dlookup d k with
        | none => rfl
        | some w => rw [hcase] at hs; simp at hs
      unfold KeysDistinct at h ⊢
      rw [List.pairwise_append]
      refine ⟨h, by simp, ?_⟩
      intro a ha b hb
      have hbkv : b = (k, v) := by simpa using hb
      subst hbkv
      exact dlookup_none_forall d k hnone a ha
  · simp only [hh, Bool.false_eq_true, if_false]
    exact h

theorem addSpecDetail_keysDistinct (d : List (Json × Json)) (item : Json)
    (h : KeysDistinct d) : KeysDistinct (addSpecDetail d item) := by
  unfold addSpecDetail
  cases item with
  | obj fields =>
    by_cases hc : (jsonTruthy ((fields.lookup "attributeName").getD (Json.str ""))
        && jsonTruthy ((fields.lookup "attributes").getD (Json.str ""))) = true
    · simp only [hc, if_true]
      exact dictAssign_keysDistinct _ _ _ h
    · simp only [hc, Bool.false_eq_true, if_false]
      exact h
  | null => exact h
  | bool b => exact h
  | num n => exact h
  | str s => exact h
  | arr elems => exact h

theorem addSpecGroupAttr_keysDistinct (d : List (Json × Json)) (attr : Json)
    (h : KeysDistinct d) : KeysDistinct (addSpecGroupAttr d attr) := by
  unfold addSpecGroupAttr
  cases attr with
  | obj fields =>
    by_cases hc : (jsonTruthy ((fields.lookup "attributeName").getD (Json.str ""))
        && jsonTruthy ((fields.lookup "attributes").getD (Json.str ""))
        && (dlookup d ((fields.lookup "attributeName").getD (Json.str ""))).isNone) = true
    · simp only [hc, if_true]
      exact dictAssign_keysDistinct _ _ _ h
    · simp only [hc, Bool.false_eq_true, if_false]
      exact h
  | null => exact h
  | bool b => exact h
  | num n => exact h
  | str s => exact h
  | arr elems => exact h

theorem foldl_spec_keysDistinct (dl sl : List Json) :
    KeysDistinct (sl.foldl addSpecGroup (dl.foldl addSpecDetail [])) := by
  have h1 : KeysDistinct (dl.foldl addSpecDetail []) := by
    have main : ∀ (items : List Json) (d : List (Json × Json)), KeysDistinct d →
        KeysDistinct (items.foldl addSpecDetail d) := by
      intro items
      induction items with
      | nil => intro d h; exact h
      | cons it rest ih =>
        intro d h
        exact ih _ (addSpecDetail_keysDistinct d it h)
    exact main dl [] (by simp [KeysDistinct])
  have hattr : ∀ (attrs : List Json) (d : List (Json × Json)), KeysDistinct d →
      KeysDistinct (attrs.foldl addSpecGroupAttr d) := by
    intro attrs
    induction attrs with
    | nil => intro d h; exact h
    | cons a rest ih =>
      intro d h
      exact ih _ (addSpecGroupAttr_keysDistinct d a h)
  have hgroup : ∀ (g : Json) (d : List (Json × Json)), KeysDistinct d →
      KeysDistinct (addSpecGroup d g) := by
    intro g d h
    cases g with
    | obj fields =>
      cases hal : fields.lookup "AttributeList" with
      | none => simpa [addSpecGroup, hal] using h
      | some w =>
        cases w with
        | arr attrs =>
          simp only [addSpecGroup, hal]
          exact hattr attrs d h
        | null => simpa [addSpecGroup, hal] using h
        | bool b => simpa [addSpecGroup, hal] using h
        | num n => simpa [addSpecGroup, hal] using h
        | str s => simpa [addSpecGroup, hal] using h
        | obj fs => simpa [addSpecGroup, hal] using h
    | null => simpa [addSpecGroup] using h
    | bool b => simpa [addSpecGroup] using h
    | num n => simpa [addSpecGroup] using h
    | str s => simpa [addSpecGroup] using h
    | arr elems => simpa [addSpecGroup] using h
  have main2 : ∀ (groups : List Json) (d : List (Json × Json)), KeysDistinct d →
      KeysDistinct (groups.foldl addSpecGroup d) := by
    intro groups
    induction groups with
    | nil => intro d h; exact h
    | cons g rest ih =>
      intro d h
      exact ih _ (hgroup g d h)
  exact main2 sl _ h1

/-- C6: for a detail payload offering specification pairs through both list
representations, any key/value binding produced by the first representation
(`specificationDetailList`) survives into the merged `info['params']` map
untouched by the second representation (`specificationList`) — first-source
precedence on every key collision — the keys of the merged map are pairwise
distinct, and the merged map is exactly the `params` field
`extract_product_info` stores for such a payload. -/
theorem spec_merge_first_source_wins (dl sl : List Json) :
    (∀ k v, dlookup (dl.foldl addSpecDetail []) k = some v →
      dlookup (mergeSpecifications (Json.obj
        [("specificationDetailList", Json.arr dl),
         ("specificationList", Json.arr sl)]) []) k = some v)
    ∧ KeysDistinct (mergeSpecifications (Json.obj
        [("specificationDetailList", Json.arr dl),
         ("specificationList", Json.arr sl)]) [])
    ∧ (extract_product_info (Json.obj [("viewGraphicDetailDTO",
          Json.obj [("specification", Json.obj
            [("specificationDetailList", Json.arr dl),
             ("specificationList", Json.arr sl)])])]) []).params
        = mergeSpecifications (Json.obj
            [("specificationDetailList", Json.arr dl),
             ("specificationList", Json.arr sl)]) [] := by
  have hmerge : mergeSpecifications (Json.obj
      [("specificationDetailList", Json.arr dl),
       ("specificationList", Json.arr sl)]) []
      = sl.foldl addSpecGroup (dl.foldl addSpecDetail []) := by rfl
  refine ⟨?_, ?_, by rfl⟩
  · intro k v h
    rw [hmerge]
    exact foldl_addSpecGroup_preserves_some sl _ k v h
  · rw [hmerge]
    exact foldl_spec_keysDistinct dl sl

/-- Concrete instance for C6: the first source binds Weight to 200g, the
second source offers Weight as 0.2kg; the merged map keeps 200g. -/
theorem spec_merge_first_source_wins_witness :
    dlookup (mergeSpecifications (Json.obj
      [("specificationDetailList", Json.arr
         [Json.obj [("attributeName", Json.str "Weight"),
                    ("attributes", Json.str "200g")]]),
       ("specificationList", Json.arr
         [Json.obj [("AttributeList", Json.arr
            [Json.obj [("attributeName", Json.str "Weight"),
                       ("attributes", Json.str "0.2kg")]])]])]) [])
      (Json.str "Weight") = some (Json.str "200g") :=
  (spec_merge_first_source_wins
    [Json.obj [("attributeName", Json.str "Weight"),
               ("attributes", Json.str "200g")]]
    [Json.obj [("AttributeList", Json.arr
       [Json.obj [("attributeName", Json.str "Weight"),
                  ("attributes", Json.str "0.2kg")]])]]).1
    (Json.str "Weight") (Json.str "200g") rfl

/-! ### The HTML detail-image fallback (`_extract_detail_images`,
src/crawler_full.py lines 464-482)

Inputs are the `src` attribute values of the matched `<img>` elements, in
document order across the two selector queries; `none` models a missing
attribute. -/

/-- Protocol normalization: `if src.startswith('//'): src = 'https:' + src`. -/
def normalizeProtocol (src : String) : String :=
  if pyStartsWith src "//" then "https:" ++ src else src

/-- The CDN size-token rewrite `src.split('!')[0].replace('/n4/', '/n1/')`. -/
def rewriteCdn (src : String) : String := pyReplace (pySplitBang src) "/n4/" "/n1/"

/-- One iteration of the image loop.  The membership check runs on the
PRE-rewrite URL while the list stores POST-rewrite URLs. -/
def extract_detail_images_step (acc : List String) (src? : Option String) :
    List String :=
  match src? with
  | none => acc
  | some src0 =>
    if src0 != "" then
      let src1 := normalizeProtocol src0
      if strContains src1 "360buyimg" && !(acc.contains src1) then
        acc ++ [rewriteCdn src1]
      else acc
    else acc

/-- `_extract_detail_images` over the gathered `src` attributes. -/
def extract_detail_images (srcs : List (Option String)) : List String :=
  srcs.foldl extract_detail_images_step []

/-- C7 counterexample: the same CDN URL gathered twice produces two equal
elements in the returned list — the dedup check compares the raw URL
against already-stored rewritten URLs, so any URL that the rewrite changes
is re-appended on every occurrence. -/
theorem detail_images_duplicates_counterexample :
    extract_detail_images
      [some "https://img.360buyimg.com/n4/a.jpg",
       some "https://img.360buyimg.com/n4/a.jpg"]
      = ["https://img.360buyimg.com/n1/a.jpg", "https://img.360buyimg.com/n1/a.jpg"]
    ∧ ¬ (extract_detail_images
      [some "https://img.360buyimg.com/n4/a.jpg",
       some "https://img.360buyimg.com/n4/a.jpg"]).Nodup := by
  exact ⟨by decide, by decide⟩

theorem extract_detail_images_mem (srcs : List (Option String)) :
    ∀ (acc : List String) (u : String), u ∈ srcs.foldl extract_detail_images_step acc →
      u ∈ acc ∨ ∃ raw, some raw ∈ srcs ∧
        strContains (normalizeProtocol raw) "360buyimg" = true ∧
        u = rewriteCdn (normalizeProtocol raw) := by
  induction srcs with
  | nil =>
    intro acc u hu
    exact Or.inl hu
  | cons src? rest ih =>
    intro acc u hu
    simp only [List.foldl_cons] at hu
    rcases ih (extract_detail_images_step acc src?) u hu with hacc | ⟨raw, hraw, hc, he⟩
    · cases src? with
      | none => exact Or.inl hacc
      | some src0 =>
        by_cases h0 : (src0 != "") = true
        · by_cases hcond : (strContains (normalizeProtocol src0) "360buyimg"
              && !(acc.contains (normalizeProtocol src0))) = true
          · simp only [extract_detail_images_step, h0, if_true, hcond] at hacc
            rcases List.mem_append.mp hacc with hl | hr
            · exact Or.inl hl
            · refine Or.inr ⟨src0, List.mem_cons_self _ _, ?_, ?_⟩
              · simp only [Bool.and_eq_true] at hcond
                exact hcond.1
              · simpa using hr
          · simp only [extract_detail_images_step, h0, if_true, hcond,
              Bool.false_eq_true, if_false] at hacc
            exact Or.inl hacc
        · simp only [extract_detail_images_step, h0, Bool.false_eq_true, if_false] at hacc
          exact Or.inl hacc
    · exact Or.inr ⟨raw, List.mem_cons_of_mem _ hraw, hc, he⟩

theorem extract_detail_images_nodup_aux (srcs : List (Option String)) :
    ∀ acc : List String,
      (∀ raw, some raw ∈ srcs →
        rewriteCdn (normalizeProtocol raw) = normalizeProtocol raw) →
      acc.Nodup → (srcs.foldl extract_detail_images_step acc).Nodup := by
  induction srcs with
  | nil => intro acc _ hacc; exact hacc
  | cons src? rest ih =>
    intro acc hfix hacc
    simp only [List.foldl_cons]
    refine ih _ (fun raw hr => hfix raw (List.mem_cons_of_mem _ hr)) ?_
    cases src? with
    | none => exact hacc
    | some src0 =>
      by_cases h0 : (src0 != "") = true
      · by_cases hcond : (strContains (normalizeProtocol src0) "360buyimg"
            && !(acc.contains (normalizeProtocol src0))) = true
        · simp only [extract_detail_images_step, h0, if_true, hcond]
          have hfix0 : rewriteCdn (normalizeProtocol src0) = normalizeProtocol src0 :=
            hfix src0 (List.mem_cons_self _ _)
          rw [hfix0]
          have hnotmem : normalizeProtocol src0 ∉ acc := by
            simp only [Bool.and_eq_true, Bool.not_eq_true'] at hcond
            intro hmem
            have hcontains := hcond.2
            have : acc.contains (normalizeProtocol src0) = true := by
              exact List.elem_eq_true_of_mem hmem
            rw [this] at hcontains
            simp at hcontains
          simp [List.nodup_append, hacc, hnotmem]
        · simp only [extract_detail_images_step, h0, if_true, hcond,
            Bool.false_eq_true, if_false]
          exact hacc
      · simp only [extract_detail_images_step, h0, Bool.false_eq_true, if_false]
        exact hacc

/-- C7 (amended): every element of the returned list is the CDN rewrite
('!' suffix stripped, '/n4/' replaced by '/n1/') of the HTTPS-normalized
form of some gathered URL containing '360buyimg'; and the returned list is
duplicate-free PROVIDED the rewrite leaves every gathered normalized URL
unchanged (no '!' and no '/n4/').  In general duplicates are possible: the
dedup check compares the pre-rewrite URL with stored post-rewrite URLs
(see the counterexample). -/
theorem detail_images_normalized_and_conditional_dedup (srcs : List (Option String)) :
    (∀ u ∈ extract_detail_images srcs, ∃ raw, some raw ∈ srcs ∧
        strContains (normalizeProtocol raw) "360buyimg" = true ∧
        u = rewriteCdn (normalizeProtocol raw))
    ∧ ((∀ raw, some raw ∈ srcs →
          rewriteCdn (normalizeProtocol raw) = normalizeProtocol raw) →
        (extract_detail_images srcs).Nodup) := by
  constructor
  · intro u hu
    rcases extract_detail_images_mem srcs [] u hu with habs | hgood
    · simp at habs
    · exact hgood
  · intro hfix
    exact extract_detail_images_nodup_aux srcs [] hfix (List.nodup_nil)

/-- Concrete instance for C7 (amended): protocol-relative URLs already in
their largest-variant form are normalized to HTTPS and deduplicated. -/
theorem detail_images_conditional_dedup_witness :
    (extract_detail_images
      [some "//img.360buyimg.com/n1/a.jpg", some "//img.360buyimg.com/n1/a.jpg"]).Nodup :=
  (detail_images_normalized_and_conditional_dedup
    [some "//img.360buyimg.com/n1/a.jpg", some "//img.360buyimg.com/n1/a.jpg"]).2
    (fun raw hr => by
      rcases List.mem_cons.mp hr with h1 | h2
      · have hraw : raw = "//img.360buyimg.com/n1/a.jpg" := by
          exact Option.some.inj h1
        subst hraw
        decide
      · have hraw : raw = "//img.360buyimg.com/n1/a.jpg" := by
          exact Option.some.inj (List.mem_singleton.mp h2)
        subst hraw
        decide)

/-! ### Risk verification (`handle_risk_verification`,
src/crawler_full.py lines 78-98)

`urls i` is the page URL read at poll `i`; `urls 0` is the URL inspected on
entry, and each loop iteration waits one second then reads `urls (i + 1)`.
The result triple is (returned value, polls performed inside the loop,
executions of `save_cookies`). -/

/-- The challenge pattern: `'risk_handler' in url or 'cfe.m.jd.com' in url`. -/
def isRiskUrl (url : String) : Bool :=
  strContains url "risk_handler" || strContains url "cfe.m.jd.com"

/-- The `for i in range(180)` polling loop, with `fuel` iterations left. -/
def riskLoop (urls : Nat → String) : Nat → Nat → Bool × Nat × Nat
  | _, 0 => (false, 0, 0)
  | i, fuel + 1 =>
    if !(isRiskUrl (urls i)) then (true, 1, 1)
    else
      let r := riskLoop urls (i + 1) fuel
      (r.1, r.2.1 + 1, r.2.2)

/-- `handle_risk_verification`: no challenge on entry returns immediately;
otherwise poll up to 180 times, saving cookies exactly once on success. -/
def handle_risk_verification (urls : Nat → String) : Bool × Nat × Nat :=
  if isRiskUrl (urls 0) then riskLoop urls 1 180 else (true, 0, 0)

theorem riskLoop_clears (urls : Nat → String) :
    ∀ (fuel i k : Nat), i ≤ k → k < i + fuel →
      (∀ j, i ≤ j → j < k → isRiskUrl (urls j) = true) →
      isRiskUrl (urls k) = false →
      riskLoop urls i fuel = (true, k - i + 1, 1) := by
  intro fuel
  induction fuel with
  | zero => intro i k h1 h2 _ _; omega
  | succ fuel ih =>
    intro i k h1 h2 hstay hk
    by_cases hik : i = k
    · subst hik
      simp [riskLoop, hk]
    · have hlt : i < k := by omega
      have hi : isRiskUrl (urls i) = true := hstay i (le_refl i) hlt
      have hrec := ih (i + 1) k (by omega) (by omega)
        (fun j hj1 hj2 => hstay j (by omega) hj2) hk
      simp only [riskLoop, hi, Bool.not_true, Bool.false_eq_true, if_false, hrec]
      have : k - i = (k - (i + 1)) + 1 := by omega
      rw [this]

theorem riskLoop_never_clears (urls : Nat → String)
    (hall : ∀ j, isRiskUrl (urls j) = true) :
    ∀ fuel i, riskLoop urls i fuel = (false, fuel, 0) := by
  intro fuel
  induction fuel with
  | zero => intro i; rfl
  | succ fuel ih =>
    intro i
    simp only [riskLoop, hall i, Bool.not_true, Bool.false_eq_true, if_false, ih (i + 1)]

/-- C5: entering a verification challenge, if the polled URL first stops
matching the challenge pattern at poll 5 (polls 1-4 still matching), the
operation returns success after exactly 5 polls and exactly one cookie
save; if every poll still matches the pattern, it returns failure after
exactly 180 one-second polls — not earlier, not later — and performs no
cookie save. -/
theorem risk_verification_poll_counts (urls : Nat → String) :
    (isRiskUrl (urls 0) = true →
      (∀ j, 1 ≤ j → j < 5 → isRiskUrl (urls j) = true) →
      isRiskUrl (urls 5) = false →
      handle_risk_verification urls = (true, 5, 1))
    ∧ ((∀ j, isRiskUrl (urls j) = true) →
      handle_risk_verification urls = (false, 180, 0)) := by
  constructor
  · intro h0 hstay h5
    unfold handle_risk_verification
    rw [if_pos h0]
    have := riskLoop_clears urls 180 1 5 (by omega) (by omega)
      (fun j hj1 hj2 => hstay j hj1 hj2) h5
    simpa using this
  · intro hall
    unfold handle_risk_verification
    rw [if_pos (hall 0)]
    exact riskLoop_never_clears urls hall 180 1

/-- Concrete runs for C5: a challenge clearing at poll 5 succeeds with one
save after 5 polls; a challenge that never clears times out at poll 180
with no save. -/
theorem risk_verification_poll_counts_witness :
    handle_risk_verification
      (fun i => if i < 5 then "https://cfe.m.jd.com/risk_handler" else "https://b2b.jd.com/index/jdgp-list")
      = (true, 5, 1)
    ∧ handle_risk_verification (fun _ => "https://cfe.m.jd.com/risk_handler")
      = (false, 180, 0) := by
  constructor
  · exact (risk_verification_poll_counts _).1 (by decide)
      (fun j hj1 hj2 => by
        have h5 : j < 5 := hj2
        simp only [h5, if_true]
        decide)
      (by decide)
  · exact (risk_verification_poll_counts _).2 (fun j => by decide)

/-! ### The export surface (`save_to_excel`, src/crawler_full.py
lines 693-741)

A worksheet cell holds whatever Python value the row list carries; the
`json.dumps` of the params dict is abstracted as the dict itself. -/

/-- One worksheet cell. -/
inductive Cell where
  | str (s : String)
  | num (n : Nat)
  | json (j : Json)
  | paramsJson (d : List (Json × Json))

/-- The header row (lines 701-707). -/
def excel_headers : List String :=
  ["SKU ID", "商品名称", "品牌", "分类",
   "京东价", "建议零售价", "主显示价", "起购数量",
   "保质期", "生产日期",
   "主图1", "主图2", "主图3", "主图4", "主图5",
   "参数JSON", "详情图数量", "详情图列表"]

/-- `main_images[:5] + [''] * (5 - len(main_images[:5]))` (line 712). -/
def padMainImages (main_images : List Json) : List Json :=
  main_images.take 5
    ++ List.replicate (5 - (main_images.take 5).length) (Json.str "")

/-- One exported row (lines 710-731), in the order the code appends the
cells. -/
def excel_row (p : ProductInfo) : List Cell :=
  [Cell.str p.sku_id, Cell.json p.name, Cell.json p.brand, Cell.json p.category,
   Cell.json p.jd_price, Cell.json p.retail_price, Cell.json p.main_price,
   Cell.json p.minimum_purchase, Cell.json p.shelf_life,
   Cell.json p.manufacturing_date,
   Cell.json ((padMainImages p.main_images).getD 0 (Json.str "")),
   Cell.json ((padMainImages p.main_images).getD 1 (Json.str "")),
   Cell.json ((padMainImages p.main_images).getD 2 (Json.str "")),
   Cell.json ((padMainImages p.main_images).getD 3 (Json.str "")),
   Cell.json ((padMainImages p.main_images).getD 4 (Json.str "")),
   Cell.paramsJson p.params, Cell.num p.detail_images.length,
   Cell.str (String.intercalate "; " (p.detail_images.take 10))]

/-- One record as serialized into the JSON backup file (`json.dumps` of the
record dict, line 740); the params dict is serialized as its pair list. -/
def productToJson (p : ProductInfo) : Json :=
  Json.obj [
    ("sku_id", Json.str p.sku_id), ("name", p.name), ("brand", p.brand),
    ("main_images", Json.arr p.main_images),
    ("params", Json.arr (p.params.map (fun q => Json.arr [q.1, q.2]))),
    ("detail_images", Json.arr (p.detail_images.map Json.str)),
    ("category", p.category), ("shelf_life", p.shelf_life),
    ("manufacturing_date", p.manufacturing_date), ("jd_price", p.jd_price),
    ("retail_price", p.retail_price), ("main_price", p.main_price),
    ("minimum_purchase", p.minimum_purchase)]

/-- The JSON backup of a run: the full record list. -/
def save_json_export (products : List ProductInfo) : Json :=
  Json.arr (products.map productToJson)

theorem padMainImages_getD (l : List Json) (i : Nat) (h : i < 5) :
    (padMainImages l).getD i (Json.str "") = l.getD i (Json.str "") := by
  unfold padMainImages
  rw [List.getD_eq_getElem?_getD, List.getD_eq_getElem?_getD, List.getElem?_append]
  by_cases hlen : i < (l.take 5).length
  · rw [if_pos hlen, List.getElem?_take_of_lt (h := by simpa using h)]
  · rw [if_neg hlen]
    have hll : l.length ≤ i := by
      simp only [List.length_take] at hlen
      omega
    have hrep : i - (l.take 5).length < 5 - (l.take 5).length := by
      simp only [List.length_take]
      omega
    rw [List.getElem?_replicate, if_pos hrep, List.getElem?_eq_none hll]
    rfl

/-- C8: each exported row lists, in this fixed order: SKU ID, name, brand,
category, the three price columns, minimum purchase quantity, shelf life,
manufacturing date, exactly five main-image columns holding the first five
main images padded with empty strings, the specification map as the JSON
blob, the count of ALL detail images, and the first ten detail images
joined by "; " — 18 columns, matching the 18 headers; and the JSON backup
serializes each record with its full, unclipped detail-image list. -/
theorem export_row_layout (p : ProductInfo) :
    excel_row p =
      [Cell.str p.sku_id, Cell.json p.name, Cell.json p.brand,
       Cell.json p.category, Cell.json p.jd_price, Cell.json p.retail_price,
       Cell.json p.main_price, Cell.json p.minimum_purchase,
       Cell.json p.shelf_life, Cell.json p.manufacturing_date,
       Cell.json (p.main_images.getD 0 (Json.str "")),
       Cell.json (p.main_images.getD 1 (Json.str "")),
       Cell.json (p.main_images.getD 2 (Json.str "")),
       Cell.json (p.main_images.getD 3 (Json.str "")),
       Cell.json (p.main_images.getD 4 (Json.str "")),
       Cell.paramsJson p.params, Cell.num p.detail_images.length,
       Cell.str (String.intercalate "; " (p.detail_images.take 10))]
    ∧ (excel_row p).length = 18
    ∧ excel_headers.length = 18
    ∧ (productToJson p).get? "detail_images"
        = some (Json.arr (p.detail_images.map Json.str)) := by
  refine ⟨?_, rfl, rfl, rfl⟩
  unfold excel_row
  rw [padMainImages_getD p.main_images 0 (by omega),
    padMainImages_getD p.main_images 1 (by omega),
    padMainImages_getD p.main_images 2 (by omega),
    padMainImages_getD p.main_images 3 (by omega),
    padMainImages_getD p.main_images 4 (by omega)]

/-! ### Malformed payloads (C9) -/

/-- Whether a response carries the list-payload shape the listener
extracts from: a JSON object whose `data` is an object with a `childList`
array (`body = none` is a body `response.json()` could not parse). -/
def listShape (r : Response) : Bool :=
  match r.body with
  | some (.obj fields) =>
    match ((Json.obj fields).get? "data").getD (Json.obj []) with
    | .obj dataFields =>
      match dataFields.lookup "childList" with
      | some (.arr _) => true
      | _ => false
    | _ => false
  | _ => false

/-- Whether a response carries the detail-payload shape: a JSON object
whose `result` is an object containing a `viewMasterMapDTO` key. -/
def detailShape (r : Response) : Bool :=
  match r.body with
  | some (.obj fields) =>
    match ((Json.obj fields).get? "result").getD (Json.obj []) with
    | .obj resFields => (resFields.lookup "viewMasterMapDTO").isSome
    | _ => false
  | _ => false

theorem capture_api_no_shape (acc : List String) (r : Response)
    (h : listShape r = false) : capture_api acc r = acc := by
  by_cases hu : isApiUrl r.url
  · cases hb : r.body with
    | none => simp [capture_api, hu, hb]
    | some body =>
      cases body with
      | obj fields =>
        cases hdata : (Json.get? (Json.obj fields) "data").getD (Json.obj []) with
        | obj dataFields =>
          cases hcl : dataFields.lookup "childList" with
          | none => simp [capture_api, hu, hb, hdata, hcl]
          | some v =>
            cases v with
            | arr items => simp [listShape, hb, hdata, hcl] at h
            | null => simp [capture_api, hu, hb, hdata, hcl]
            | bool b => simp [capture_api, hu, hb, hdata, hcl]
            | num n => simp [capture_api, hu, hb, hdata, hcl]
            | str s => simp [capture_api, hu, hb, hdata, hcl]
            | obj fs => simp [capture_api, hu, hb, hdata, hcl]
        | null => simp [capture_api, hu, hb, hdata]
        | bool b => simp [capture_api, hu, hb, hdata]
        | num n => simp [capture_api, hu, hb, hdata]
        | str s => simp [capture_api, hu, hb, hdata]
        | arr elems => simp [capture_api, hu, hb, hdata]
      | null => simp [capture_api, hu, hb]
      | bool b => simp [capture_api, hu, hb]
      | num n => simp [capture_api, hu, hb]
      | str s => simp [capture_api, hu, hb]
      | arr elems => simp [capture_api, hu, hb]
  · simp [capture_api, hu]

theorem capture_detail_api_no_shape (st : Option Json) (r : Response)
    (h : detailShape r = false) : capture_detail_api st r = st := by
  rw [capture_detail_api_eq]
  have hm : matchResult r = none := by
    by_cases hu : isApiUrl r.url
    · cases hb : r.body with
      | none => simp [matchResult, hu, hb]
      | some body =>
        cases body with
        | obj fields =>
          cases hres : (Json.get? (Json.obj fields) "result").getD (Json.obj []) with
          | obj resFields =>
            cases hvm : resFields.lookup "viewMasterMapDTO" with
            | none => simp [matchResult, hu, hb, hres, hvm]
            | some v => simp [detailShape, hb, hres, hvm] at h
          | null => simp [matchResult, hu, hb, hres]
          | bool b => simp [matchResult, hu, hb, hres]
          | num n => simp [matchResult, hu, hb, hres]
          | str s => simp [matchResult, hu, hb, hres]
          | arr elems => simp [matchResult, hu, hb, hres]
        | null => simp [matchResult, hu, hb]
        | bool b => simp [matchResult, hu, hb]
        | num n => simp [matchResult, hu, hb]
        | str s => simp [matchResult, hu, hb]
        | arr elems => simp [matchResult, hu, hb]
    · simp [matchResult, hu]
  rw [hm]
  rfl

/-- C9: a response whose body is not parseable JSON, or whose JSON lacks
the expected shape, leaves both listener accumulators unchanged; both
listeners are total functions of the response, so a parse failure can
never abort the listener or the surrounding operation. -/
theorem malformed_response_no_effect (r : Response) (acc : List String)
    (st : Option Json) :
    (listShape r = false → capture_api acc r = acc)
    ∧ (detailShape r = false → capture_detail_api st r = st) :=
  ⟨capture_api_no_shape acc r, capture_detail_api_no_shape st r⟩

/-- Concrete instance for C9: an unparseable body on the API host leaves a
non-empty list accumulator and a pending detail capture untouched. -/
theorem malformed_response_no_effect_witness :
    capture_api ["111"] ⟨"https://api.m.jd.com/client.action", none⟩ = ["111"]
    ∧ capture_detail_api (some (Json.obj [("viewMasterMapDTO", Json.obj [])]))
        ⟨"https://api.m.jd.com/client.action", none⟩
        = some (Json.obj [("viewMasterMapDTO", Json.obj [])]) :=
  ⟨(malformed_response_no_effect ⟨"https://api.m.jd.com/client.action", none⟩
      ["111"] (some (Json.obj [("viewMasterMapDTO", Json.obj [])]))).1 rfl,
   (malformed_response_no_effect ⟨"https://api.m.jd.com/client.action", none⟩
      ["111"] (some (Json.obj [("viewMasterMapDTO", Json.obj [])]))).2 rfl⟩

/-! ### The page-1 accumulator clear (C10)

On page 1, `get_sku_ids_from_page` navigates, handles verification, runs
the type-filter step (and its list-API wait only when the click succeeded),
then executes `captured_skus.clear()` — once, between the type-filter step
and the category-filter step — and only then applies the category filter
and scrolls (src/crawler_full.py lines 300-331).  The listener is attached
for the whole page, so responses arriving before the clear do reach the
accumulator and are then discarded. -/

/-- Page-1 discovery: `navResponses` arrive up to the type-filter click,
`typeWaitResponses` during the type-filter wait (which only runs when the
click succeeded), `postClearResponses` from the clear onward (category
filter, its wait, and the scroll phase). -/
def page1_collect (typeSelected : Bool) (navResponses typeWaitResponses
    postClearResponses : List Response) : List String :=
  let captured := navResponses.foldl capture_api []
  let captured := if typeSelected
    then typeWaitResponses.foldl capture_api captured else captured
  let _ := captured
  let captured : List String := []
  postClearResponses.foldl capture_api captured

/-- C10: the page-1 identifier list is exactly the one collected from the
responses arriving after the single `captured_skus.clear()`; it does not
depend on the responses seen during navigation or the type-filter step,
nor on whether the type-filter selection succeeded, and an identifier
delivered only before the clear is absent from the returned list. -/
theorem page1_clear_discards_prefilter (ts : Bool)
    (nav tw post : List Response) :
    page1_collect ts nav tw post = get_sku_ids_from_page post
    ∧ page1_collect ts nav tw post = page1_collect (!ts) nav tw post
    ∧ page1_collect ts nav tw post = page1_collect true [] [] post
    ∧ (∀ s, s ∈ pageStream nav ++ pageStream tw → s ∉ pageStream post →
        s ∉ page1_collect ts nav tw post) := by
  refine ⟨rfl, rfl, rfl, ?_⟩
  intro s _ hnot hmem
  have : page1_collect ts nav tw post = get_sku_ids_from_page post := rfl
  rw [this, get_sku_ids_from_page_eq] at hmem
  exact hnot ((mem_dedupFirst s (pageStream post)).mp hmem)

/-- Concrete instance for C10: an identifier delivered only by a response
before the clear (here during navigation, with the type filter failed) is
absent from the page's returned list. -/
theorem page1_clear_discards_prefilter_witness :
    page1_collect false
      [⟨"https://api.m.jd.com/client.action", some (Json.obj [("data",
         Json.obj [("childList", Json.arr [Json.obj [("skuId", Json.str "111")]])])])⟩]
      []
      [⟨"https://api.m.jd.com/client.action", some (Json.obj [("data",
         Json.obj [("childList", Json.arr [Json.obj [("skuId", Json.str "222")]])])])⟩]
      = ["222"]
    ∧ "111" ∉ page1_collect false
      [⟨"https://api.m.jd.com/client.action", some (Json.obj [("data",
         Json.obj [("childList", Json.arr [Json.obj [("skuId", Json.str "111")]])])])⟩]
      []
      [⟨"https://api.m.jd.com/client.action", some (Json.obj [("data",
         Json.obj [("childList", Json.arr [Json.obj [("skuId", Json.str "222")]])])])⟩] := by
  constructor
  · decide
  · exact (page1_clear_discards_prefilter false
      [⟨"https://api.m.jd.com/client.action", some (Json.obj [("data",
         Json.obj [("childList", Json.arr [Json.obj [("skuId", Json.str "111")]])])])⟩]
      []
      [⟨"https://api.m.jd.com/client.action", some (Json.obj [("data",
         Json.obj [("childList", Json.arr [Json.obj [("skuId", Json.str "222")]])])])⟩]).2.2.2
      "111" (by decide) (by decide)
